import Mathlib

/-!
Verification of the llmbox voice-assistant pipeline (llm_manager.py,
stt_manager.py, tts_manager.py) against its natural-language specification.

Shallow embedding conventions:
* Timestamps and TTL values are modelled as `Int`.  The Python code only ever
  adds, subtracts and compares timestamps (`time.time()` results), so any
  linearly ordered additive group is faithful; `Int` keeps everything
  decidable for concrete evaluation.
* Python strings are modelled as Lean `String` (a wrapper around
  `List Char`); `str.lower()` is modelled with `Char.toLower`, which agrees
  with Python on the ASCII letters the rest of the pipeline cares about.
* The effectful collaborator calls (ollama chat, OpenAI transcription and
  synthesis, playback) are modelled by outcome parameters: each execution
  function takes the collaborator's result as an explicit argument and
  returns the successor state plus the emitted downstream task, mirroring
  the Python control flow path by path.
* The random session token (`random_string(10)` from the repository's
  `utils` module, not needed beyond freshness) is passed in as an explicit
  `fresh` argument wherever the code would draw a new random string.
-/

namespace LLMBox

/-- Role of a chat message, mirroring the `Literal["user", "assistant"]`
annotation on `Message.role` in llm_manager.py. -/
inductive Role where
  | user
  | assistant
deriving DecidableEq, Repr

/-- Mirrors the `Message` dataclass of llm_manager.py. -/
structure Message where
  text : String
  role : Role
deriving DecidableEq, Repr

/-- Mirrors the `LLMTask` dataclass of llm_manager.py: a timestamped
recognized-text work item for the Reply Stage queue. -/
structure LLMTask where
  receiving_time : Int
  text : String
deriving DecidableEq, Repr

/-- Mirrors the `TTSTask` dataclass of tts_manager.py: a timestamped
synthesis work item for the Speech Stage queue. -/
structure TTSTask where
  receiving_time : Int
  input : String
deriving DecidableEq, Repr

/-- Mirrors `LLMManager._has_expired`: `False` when the configured
`task_expire_time` is `0`, otherwise `receiving_time + ttl < now`. -/
def llm_has_expired (task_expire_time : Int) (now : Int) (task : LLMTask) : Bool :=
  if task_expire_time = 0 then false
  else decide (task.receiving_time + task_expire_time < now)

/-- Mirrors `TTSManager._has_expired`, the same policy on `TTSTask`s. -/
def tts_has_expired (task_expire_time : Int) (now : Int) (task : TTSTask) : Bool :=
  if task_expire_time = 0 then false
  else decide (task.receiving_time + task_expire_time < now)

/-- One iteration of `LLMManager._consume_tasks` after dequeue: an expired
task is dropped (`none`), otherwise it is dispatched to `_execute_task`. -/
def llm_consume_step (task_expire_time : Int) (now : Int) (task : LLMTask) :
    Option LLMTask :=
  if llm_has_expired task_expire_time now task then none else some task

/-- One iteration of `TTSManager._consume_tasks` after dequeue. -/
def tts_consume_step (task_expire_time : Int) (now : Int) (task : TTSTask) :
    Option TTSTask :=
  if tts_has_expired task_expire_time now task then none else some task

/-- Mirrors `ALLOWED_CHARACTERS = string.ascii_letters + string.digits
+ " .,?!\x7b\x7d-_"` in llm_manager.py (the last two escapes are the curly
braces). -/
def ALLOWED_CHARACTERS : String :=
  "abcdefghijklmnopqrstuvwxyzABCDEFGHIJKLMNOPQRSTUVWXYZ0123456789 .,?!\x7b\x7d-_"

/-- Mirrors `LLMManager._filter_letters`: keep exactly the characters that
occur in `ALLOWED_CHARACTERS`, in order. -/
def filter_letters (text : String) : String :=
  String.mk (text.toList.filter (fun c => decide (c ∈ ALLOWED_CHARACTERS.toList)))

/-- Python `str.strip()` on the ASCII fragment: drop whitespace from both
ends. -/
def strip_chars (l : List Char) : List Char :=
  ((l.dropWhile Char.isWhitespace).reverse.dropWhile Char.isWhitespace).reverse

/-- The separator used by `reply.split("</think>", 1)[-1]`. -/
def THINK_SEP : List Char := "</think>".toList

/-- Returns the suffix after the first occurrence of `sep`, if `sep` occurs. -/
def split_once_after (sep : List Char) : List Char → Option (List Char)
  | [] => none
  | c :: rest =>
    if sep.isPrefixOf (c :: rest) then some ((c :: rest).drop sep.length)
    else split_once_after sep rest

/-- Mirrors `reply.split("</think>", 1)[-1]`: everything after the first
`"</think>"`, or the whole string when the separator does not occur. -/
def after_think (l : List Char) : List Char :=
  (split_once_after THINK_SEP l).getD l

/-- The Reply Stage's post-processing of a successful completion result
(lines 176-179 of llm_manager.py): `strip`, drop the deliberation segment
up to `"</think>"`, then apply the allow-list filter. -/
def process_reply (content : String) : String :=
  filter_letters (String.mk (after_think (strip_chars content.toList)))

/-- The Reply Stage configuration fields used by `_execute_task` and
`_has_expired`. -/
structure LLMConfig where
  task_expire_time : Int
  recollection_time : Int
  max_message_history : Nat
deriving DecidableEq, Repr

/-- The mutable session state of `LLMManager`: `_message_history`,
`_last_message_time` and `_message_history_hash`. -/
structure LLMState where
  message_history : List Message
  last_message_time : Int
  message_history_hash : String
deriving DecidableEq, Repr

/-- The state set up by `LLMManager.__init__`: empty history, Python
`_last_message_time = 0.0`, and an initial random hash `hash0`. -/
def initial_state (hash0 : String) : LLMState :=
  { message_history := [], last_message_time := 0, message_history_hash := hash0 }

/-- Appending to a `collections.deque` with `maxlen`: the new element goes
to the back; if the length would exceed `maxlen`, elements are discarded
from the front. -/
def append_bounded (maxlen : Nat) (history : List Message) (m : Message) :
    List Message :=
  let h2 := history ++ [m]
  if maxlen < h2.length then h2.drop (h2.length - maxlen) else h2

/-- Mirrors `LLMManager._reset_history`: clear the history, zero the last
message time, and regenerate the session hash (the `fresh` random draw). -/
def reset_history (st : LLMState) (fresh : String) : LLMState :=
  { st with
    message_history := [],
    last_message_time := 0,
    message_history_hash := fresh }

/-- Outcome of the `self._client.chat` collaborator call in
`LLMManager._execute_task`: a raised exception, a `None` reply, or a reply
carrying message content. -/
inductive ChatOutcome where
  | failure
  | noReply
  | reply (content : String)
deriving DecidableEq, Repr

/-- The idle-reset check opening `LLMManager._execute_task`: reset when
`time.time() - self._last_message_time > self._recollection_time`. -/
def after_idle_check (cfg : LLMConfig) (st : LLMState) (now : Int)
    (fresh : String) : LLMState :=
  if cfg.recollection_time < now - st.last_message_time
  then reset_history st fresh
  else st

/-- The state after the idle check and the user-message append of
`LLMManager._execute_task` (lines 136-145). -/
def after_user_append (cfg : LLMConfig) (st : LLMState) (task : LLMTask)
    (now : Int) (fresh : String) : LLMState :=
  let st1 := after_idle_check cfg st now fresh
  { st1 with
    message_history := append_bounded cfg.max_message_history
      st1.message_history { text := task.text, role := Role.user } }

/-- Mirrors `LLMManager._execute_task` end to end: idle check, user append,
then branch on the completion outcome.  `now` is the wall-clock time at the
idle check, `done` the time after the completion call (used for
`_last_message_time` and the submitted `TTSTask`), `fresh` the random
string drawn if `_reset_history` runs.  Returns the resulting session state
and the speech task submitted to the Speech Stage queue, if any. -/
def execute_task (cfg : LLMConfig) (st : LLMState) (task : LLMTask)
    (now : Int) (fresh : String) (outcome : ChatOutcome) (done : Int) :
    LLMState × Option TTSTask :=
  let st2 := after_user_append cfg st task now fresh
  match outcome with
  | ChatOutcome.failure => (st2, none)
  | ChatOutcome.noReply => ({ st2 with message_history := [] }, none)
  | ChatOutcome.reply content =>
    let r := process_reply content
    if r = "" then (st2, none)
    else
      ({ st2 with
          message_history := append_bounded cfg.max_message_history
            st2.message_history { text := r, role := Role.assistant },
          last_message_time := done },
        some { receiving_time := done, input := r })

/-- Outcome of the transcription collaborator call in
`STTManager.recognize`. -/
inductive RecognitionOutcome where
  | failure
  | recognized (text : String)
deriving DecidableEq, Repr

/-- Python `str.lower()` restricted to ASCII, via `Char.toLower`. -/
def lower_chars (l : List Char) : List Char := l.map Char.toLower

/-- Python `str.removesuffix(".")`: drop one trailing dot, if present. -/
def remove_suffix_dot (l : List Char) : List Char :=
  if l.getLast? = some '.' then l.dropLast else l

/-- The normalization `text.lower().strip().removesuffix(".")` applied in
`STTManager.recognize` (line 75). -/
def normalize_text (text : String) : List Char :=
  remove_suffix_dot (strip_chars (lower_chars text.toList))

/-- Mirrors `STTManager.recognize`: on transcription failure, return with
no task; otherwise normalize, drop empty text, and submit an `LLMTask`
stamped with the current time. -/
def recognize (outcome : RecognitionOutcome) (now : Int) : Option LLMTask :=
  match outcome with
  | RecognitionOutcome.failure => none
  | RecognitionOutcome.recognized text =>
    let t := normalize_text text
    if t.length = 0 then none
    else some { receiving_time := now, text := String.mk t }

/-- Mirrors `STTManager.callback`: if the speaker lock is held, return
immediately (no recognition task is ever submitted); otherwise recognition
runs and may enqueue a Reply Stage task. -/
def callback (speaker_lock_held : Bool) (outcome : RecognitionOutcome)
    (now : Int) : Option LLMTask :=
  if speaker_lock_held then none else recognize outcome now

/-- Observable events of one `TTSManager._execute_task` run, in program
order. -/
inductive TTSEvent where
  | acquire
  | synth
  | play
  | cooldown (seconds : Nat)
  | release
deriving DecidableEq, Repr

/-- Outcome of the synthesis/playback section of `TTSManager._execute_task`:
full success, an exception while opening or streaming the synthesis
response, or an exception during playback. -/
inductive SynthOutcome where
  | success
  | synthFailure
  | playFailure
deriving DecidableEq, Repr

/-- Events produced inside the `try` block of `TTSManager._execute_task`
(lines 94-113): on success the synthesis streams, playback runs, then
`asyncio.sleep(2)`; an exception aborts the block at the failing step and
is swallowed by the `except` clause. -/
def tts_try_events : SynthOutcome → List TTSEvent
  | SynthOutcome.success =>
    [TTSEvent.synth, TTSEvent.play, TTSEvent.cooldown 2]
  | SynthOutcome.synthFailure => []
  | SynthOutcome.playFailure => [TTSEvent.synth]

/-- The full event trace of `TTSManager._execute_task`: acquire the speaker
lock, run the `try` block, and release the lock in the `finally` clause. -/
def tts_execute_events (outcome : SynthOutcome) : List TTSEvent :=
  TTSEvent.acquire :: (tts_try_events outcome ++ [TTSEvent.release])

/-- Whether the speaker gate is held after replaying an event trace,
starting from a free gate. -/
def gate_held_after (events : List TTSEvent) : Bool :=
  events.foldl
    (fun held e =>
      match e with
      | TTSEvent.acquire => true
      | TTSEvent.release => false
      | _ => held)
    false

/-- The session hash produced by `_execute_task` is the one fixed at the
idle check: no later branch of the method touches it. -/
lemma execute_task_hash (cfg : LLMConfig) (st : LLMState) (task : LLMTask)
    (now : Int) (fresh : String) (outcome : ChatOutcome) (done : Int) :
    (execute_task cfg st task now fresh outcome done).1.message_history_hash =
      (after_idle_check cfg st now fresh).message_history_hash := by
  cases outcome with
  | failure => rfl
  | noReply => rfl
  | reply content =>
    unfold execute_task
    dsimp only
    split <;> rfl

/-- Claim C1 (counterexample): with `ttl = 60`, a task received at time `0`
and dequeued at `now = 60` satisfies `now ≥ receivingTime + ttl` and
`ttl ≠ 0`, yet the Reply Stage consume loop dispatches it rather than
dropping it, because `_has_expired` tests the strict inequality
`receiving_time + ttl < now`. -/
theorem C1_counterexample :
    llm_consume_step 60 60 { receiving_time := 0, text := "hi" } =
      some { receiving_time := 0, text := "hi" } ∧
    (0 : Int) + 60 ≤ 60 ∧ (60 : Int) ≠ 0 := by
  refine ⟨rfl, by decide, by decide⟩

/-- Claim C1 (amended): in both the Reply Stage and the Speech Stage
consume loops, a dequeued task with `ttl ≠ 0` is dropped exactly when
`receivingTime + ttl < now` (strictly), i.e. it is dispatched exactly when
`ttl = 0` or `now ≤ receivingTime + ttl`; with `ttl = 0` it is always
dispatched. -/
theorem C1_expiry_policy (ttl now : Int) (t : LLMTask) (u : TTSTask) :
    (llm_consume_step ttl now t = some t ↔
      ttl = 0 ∨ now ≤ t.receiving_time + ttl) ∧
    (llm_consume_step ttl now t = none ↔
      ttl ≠ 0 ∧ t.receiving_time + ttl < now) ∧
    (tts_consume_step ttl now u = some u ↔
      ttl = 0 ∨ now ≤ u.receiving_time + ttl) ∧
    (tts_consume_step ttl now u = none ↔
      ttl ≠ 0 ∧ u.receiving_time + ttl < now) := by
  unfold llm_consume_step tts_consume_step llm_has_expired tts_has_expired
  by_cases h0 : ttl = 0
  · simp [h0]
  · by_cases h1 : t.receiving_time + ttl < now <;>
      by_cases h2 : u.receiving_time + ttl < now <;>
        simp [h0, h1, h2] <;> omega

/-- Claim C2 (counterexample): a completion call that returns an *empty*
body does not clear the session history.  Starting from a fresh manager,
after the reply `""` the history still holds the appended user message
(length `1`, not `0`); only the speech-task part of the claim holds. -/
theorem C2_counterexample :
    (execute_task ⟨120, 60, 10⟩ (initial_state "h0") ⟨5, "hi"⟩ 100 "h1"
        (ChatOutcome.reply "") 100).1.message_history =
      [{ text := "hi", role := Role.user }] ∧
    (execute_task ⟨120, 60, 10⟩ (initial_state "h0") ⟨5, "hi"⟩ 100 "h1"
        (ChatOutcome.reply "") 100).1.message_history.length ≠ 0 ∧
    (execute_task ⟨120, 60, 10⟩ (initial_state "h0") ⟨5, "hi"⟩ 100 "h1"
        (ChatOutcome.reply "") 100).2 = none := by
  refine ⟨by decide, by decide, by decide⟩

/-- Claim C2 (amended): only a *missing* (`None`) completion result clears
the whole session history; a reply whose post-processed body is empty
abandons the task with the session state exactly as it stood after the
user-message append (history not cleared).  In both cases no speech task is
submitted. -/
theorem C2_empty_vs_missing (cfg : LLMConfig) (st : LLMState) (task : LLMTask)
    (now : Int) (fresh : String) (done : Int) (content : String)
    (h : process_reply content = "") :
    execute_task cfg st task now fresh (ChatOutcome.reply content) done =
      (after_user_append cfg st task now fresh, none) ∧
    execute_task cfg st task now fresh ChatOutcome.noReply done =
      ({ after_user_append cfg st task now fresh with
          message_history := [] }, none) := by
  constructor
  · unfold execute_task
    simp [h]
  · rfl

/-- Claim C2 (witness): the amended statement at a concrete empty reply. -/
theorem C2_empty_vs_missing_witness :
    process_reply "" = "" ∧
    execute_task ⟨120, 60, 10⟩ (initial_state "h0") ⟨5, "hi"⟩ 100 "h1"
        (ChatOutcome.reply "") 100 =
      (after_user_append ⟨120, 60, 10⟩ (initial_state "h0") ⟨5, "hi"⟩
          100 "h1", none) :=
  ⟨by decide,
    (C2_empty_vs_missing ⟨120, 60, 10⟩ (initial_state "h0") ⟨5, "hi"⟩ 100
      "h1" 100 "" (by decide)).1⟩

/-- Claim C3 (counterexample): on the missing-reply clearing path the
history is cleared but the session token is *not* regenerated.  With no
idle reset pending (`now - last = 50 ≤ 60`), a `None` completion result
leaves `message_history_hash` at its old value `"h0"` even though the
history was just cleared, so a consumer holding `"h0"` cannot detect this
reset. -/
theorem C3_counterexample :
    (execute_task ⟨120, 60, 10⟩ ⟨[⟨"a", Role.user⟩], 50, "h0"⟩ ⟨90, "hi"⟩
        100 "h1" ChatOutcome.noReply 100).1.message_history = [] ∧
    (execute_task ⟨120, 60, 10⟩ ⟨[⟨"a", Role.user⟩], 50, "h0"⟩ ⟨90, "hi"⟩
        100 "h1" ChatOutcome.noReply 100).1.message_history_hash = "h0" ∧
    ("h0" : String) ≠ "h1" := by
  refine ⟨by decide, by decide, by decide⟩

/-- Claim C3 (amended): the session token is regenerated by the idle-reset
path (`_reset_history` clears the history and installs the fresh token),
but the missing-reply path clears the history while leaving the token
exactly as the idle check left it (the old token when no idle reset fired),
so a stale token does not detect that clearing. -/
theorem C3_token_on_reset (cfg : LLMConfig) (st : LLMState) (task : LLMTask)
    (now : Int) (fresh : String) (done : Int) :
    ((reset_history st fresh).message_history = [] ∧
      (reset_history st fresh).message_history_hash = fresh) ∧
    ((execute_task cfg st task now fresh ChatOutcome.noReply
        done).1.message_history = [] ∧
      (execute_task cfg st task now fresh ChatOutcome.noReply
        done).1.message_history_hash =
        (after_idle_check cfg st now fresh).message_history_hash) ∧
    (after_idle_check cfg st now fresh).message_history_hash =
      (if cfg.recollection_time < now - st.last_message_time then fresh
        else st.message_history_hash) := by
  refine ⟨⟨rfl, rfl⟩, ⟨rfl, rfl⟩, ?_⟩
  unfold after_idle_check reset_history
  split <;> rfl

/-- Claim C5: while the speaker gate is held, `STTManager.callback` returns
immediately and no recognition task is ever admitted to the Reply Stage
queue, whatever the audio would have transcribed to; when the gate is free
the callback proceeds to recognition. -/
theorem C5_gate_admission (outcome : RecognitionOutcome) (now : Int) :
    callback true outcome now = none ∧
    callback false outcome now = recognize outcome now :=
  ⟨rfl, rfl⟩

/-- Claim C6: every execution path of `TTSManager._execute_task` — success,
synthesis failure, playback failure — releases the speaker gate: the trace
always contains `release`, it is the final event, and replaying the trace
leaves the gate free. -/
theorem C6_gate_release (o : SynthOutcome) :
    gate_held_after (tts_execute_events o) = false ∧
    (tts_execute_events o).getLast? = some TTSEvent.release ∧
    TTSEvent.release ∈ tts_execute_events o := by
  cases o <;> exact ⟨rfl, rfl, by decide⟩

/-- Claim C7 (counterexample): the fixed cooldown is not enforced on every
path, and does not follow the release.  When synthesis fails the trace is
exactly `[acquire, release]` — no cooldown event at all — and on success
the `cooldown 2` event precedes `release` rather than following it. -/
theorem C7_counterexample :
    TTSEvent.cooldown 2 ∉ tts_execute_events SynthOutcome.synthFailure ∧
    tts_execute_events SynthOutcome.success =
      [TTSEvent.acquire, TTSEvent.synth, TTSEvent.play,
        TTSEvent.cooldown 2, TTSEvent.release] := by
  exact ⟨by decide, rfl⟩

/-- Claim C7 (amended): on a successful synthesis-and-playback run the
Speech Stage sleeps the fixed 2-second cooldown *before* releasing the
gate, and on any synthesis or playback failure the cooldown is skipped
entirely and the gate is released immediately; release is the last event on
every path. -/
theorem C7_cooldown_traces :
    tts_execute_events SynthOutcome.success =
      [TTSEvent.acquire, TTSEvent.synth, TTSEvent.play,
        TTSEvent.cooldown 2, TTSEvent.release] ∧
    tts_execute_events SynthOutcome.synthFailure =
      [TTSEvent.acquire, TTSEvent.release] ∧
    tts_execute_events SynthOutcome.playFailure =
      [TTSEvent.acquire, TTSEvent.synth, TTSEvent.release] :=
  ⟨rfl, rfl, rfl⟩

/-- One bounded append never leaves more than `maxlen` messages. -/
lemma append_bounded_length_le (n : Nat) (h : List Message) (m : Message) :
    (append_bounded n h m).length ≤ n := by
  unfold append_bounded
  dsimp only
  split
  · simp only [List.length_drop]
    omega
  · next hnot =>
    simp only [not_lt] at hnot
    exact hnot

/-- Folding bounded appends preserves the length bound. -/
lemma foldl_append_bounded_le (n : Nat) (ms : List Message) :
    ∀ st : List Message, st.length ≤ n →
      (ms.foldl (append_bounded n) st).length ≤ n := by
  induction ms with
  | nil => intro st h; simpa using h
  | cons m rest ih =>
    intro st _
    simp only [List.foldl_cons]
    exact ih _ (append_bounded_length_le n st m)

/-- The 24 messages of the spec scenario "12 sequential user/assistant
pairs", numbered so the surviving suffix is recognizable. -/
def twelve_pairs : List Message :=
  (List.range 24).map (fun i =>
    { text := toString i,
      role := if i % 2 = 0 then Role.user else Role.assistant })

/-- Claim C4: the session history never exceeds the configured maximum
after any sequence of bounded appends starting from the empty history; an
append to a full history evicts exactly the oldest message and keeps the
rest in order; and 12 sequential user/assistant pairs against maximum 10
leave exactly the last 10 messages. -/
theorem C4_bounded_history (n : Nat) (ms : List Message) (h : List Message)
    (m : Message) (hlen : h.length = n) (hpos : 0 < n) :
    (ms.foldl (append_bounded n) []).length ≤ n ∧
    append_bounded n h m = h.drop 1 ++ [m] ∧
    twelve_pairs.foldl (append_bounded 10) [] = twelve_pairs.drop 14 := by
  refine ⟨foldl_append_bounded_le n ms [] (by simp), ?_, by decide⟩
  unfold append_bounded
  dsimp only
  rw [if_pos (by simp [hlen])]
  have hd : (h ++ [m]).length - n = 1 := by simp [hlen]
  rw [hd, List.drop_append_of_le_length (by omega)]

/-- Claim C4 (witness): the bound, the eviction equation and the 12-pair
scenario at a concrete full history of length 2. -/
theorem C4_bounded_history_witness :
    ([⟨"a", Role.user⟩, ⟨"b", Role.assistant⟩] : List Message).length = 2 ∧
    0 < 2 ∧
    (((([⟨"x", Role.user⟩, ⟨"y", Role.assistant⟩, ⟨"z", Role.user⟩] :
          List Message).foldl (append_bounded 2) []).length ≤ 2) ∧
      append_bounded 2 [⟨"a", Role.user⟩, ⟨"b", Role.assistant⟩]
          ⟨"c", Role.user⟩ =
        ([⟨"a", Role.user⟩, ⟨"b", Role.assistant⟩] : List Message).drop 1 ++
          [⟨"c", Role.user⟩] ∧
      twelve_pairs.foldl (append_bounded 10) [] = twelve_pairs.drop 14) :=
  ⟨by decide, by decide,
    C4_bounded_history 2 [⟨"x", Role.user⟩, ⟨"y", Role.assistant⟩,
      ⟨"z", Role.user⟩] [⟨"a", Role.user⟩, ⟨"b", Role.assistant⟩]
      ⟨"c", Role.user⟩ (by decide) (by decide)⟩

/-- Rebuilding a string from its characters is the identity. -/
lemma string_mk_toList (s : String) : String.mk s.toList = s := by
  cases s
  rfl

/-- Claim C8: the allow-list filter `_filter_letters` is idempotent,
returns already-clean strings unchanged, only ever removes characters
(its output is a sublist of its input, so relative order is preserved),
and keeps a character exactly when it occurs in `ALLOWED_CHARACTERS`. -/
theorem C8_filter_idempotent (s : String) :
    filter_letters (filter_letters s) = filter_letters s ∧
    ((∀ c ∈ s.toList, c ∈ ALLOWED_CHARACTERS.toList) → filter_letters s = s) ∧
    (filter_letters s).toList.Sublist s.toList ∧
    (∀ c : Char, c ∈ (filter_letters s).toList ↔
      c ∈ s.toList ∧ c ∈ ALLOWED_CHARACTERS.toList) := by
  refine ⟨?_, ?_, ?_, ?_⟩
  · show String.mk ((s.toList.filter _).filter _) = String.mk (s.toList.filter _)
    exact congrArg String.mk (by simp [List.filter_filter])
  · intro h
    show String.mk (s.toList.filter _) = s
    rw [List.filter_eq_self.mpr fun c hc => decide_eq_true (h c hc)]
    exact string_mk_toList s
  · exact List.filter_sublist _
  · intro c
    show c ∈ s.toList.filter _ ↔ _
    simp [List.mem_filter]

/-- Claim C8 (witness): the filter fixes the concrete clean string
"hi there". -/
theorem C8_filter_idempotent_witness :
    (∀ c ∈ ("hi there" : String).toList, c ∈ ALLOWED_CHARACTERS.toList) ∧
    filter_letters "hi there" = "hi there" :=
  ⟨by decide, (C8_filter_idempotent "hi there").2.1 (by decide)⟩

/-- Claim C9: the very first task executed after construction triggers an
idle reset for any positive idle threshold smaller than the wall-clock
dequeue time, because `_last_message_time` starts at `0`: the idle check
rewrites the fresh state through `_reset_history`, and whatever the
completion outcome, the session token of the resulting state is the fresh
one drawn by that reset. -/
theorem C9_first_task_idle_reset (cfg : LLMConfig) (hash0 : String)
    (task : LLMTask) (now : Int) (fresh : String) (outcome : ChatOutcome)
    (done : Int) (_hpos : 0 < cfg.recollection_time)
    (hnow : cfg.recollection_time < now) :
    after_idle_check cfg (initial_state hash0) now fresh =
      reset_history (initial_state hash0) fresh ∧
    (execute_task cfg (initial_state hash0) task now fresh outcome
      done).1.message_history_hash = fresh := by
  have h1 : after_idle_check cfg (initial_state hash0) now fresh =
      reset_history (initial_state hash0) fresh := by
    unfold after_idle_check initial_state
    rw [if_pos]
    simp only
    omega
  refine ⟨h1, ?_⟩
  rw [execute_task_hash, h1]
  rfl

/-- Claim C9 (witness): concrete first execution with threshold 60 at
wall-clock 100. -/
theorem C9_first_task_idle_reset_witness :
    (0 : Int) < 60 ∧ (60 : Int) < 100 ∧
    (execute_task ⟨120, 60, 10⟩ (initial_state "h0") ⟨5, "hi"⟩ 100 "h1"
      ChatOutcome.failure 100).1.message_history_hash = "h1" :=
  ⟨by decide, by decide,
    (C9_first_task_idle_reset ⟨120, 60, 10⟩ "h0" ⟨5, "hi"⟩ 100 "h1"
      ChatOutcome.failure 100 (by decide) (by decide)).2⟩

/-- `Char.isUpper` in terms of the scalar value. -/
lemma isUpper_iff (c : Char) : c.isUpper = true ↔ 65 ≤ c.toNat ∧ c.toNat ≤ 90 := by
  simp [Char.isUpper, Char.toNat, UInt32.le_def, BitVec.le_def, UInt32.toNat]

/-- Characters built from the ASCII lowercase range are not uppercase. -/
lemma isUpper_ofNat_false (m : Nat) (h1 : 97 ≤ m) (h2 : m ≤ 122) :
    (Char.ofNat m).isUpper = false := by
  interval_cases m <;> decide

/-- Lowercasing never yields an ASCII uppercase letter. -/
lemma toLower_isUpper_false (c : Char) : (Char.toLower c).isUpper = false := by
  rw [Char.toLower]
  split
  · next h => exact isUpper_ofNat_false _ (by omega) (by omega)
  · next h =>
    cases hu : c.isUpper
    · rfl
    · have := (isUpper_iff c).mp hu
      exact absurd ⟨this.1, this.2⟩ h

/-- Stripping whitespace only removes characters. -/
lemma strip_chars_sublist (l : List Char) : (strip_chars l).Sublist l := by
  unfold strip_chars
  have h1 : (l.dropWhile Char.isWhitespace).Sublist l := List.dropWhile_sublist _
  have h2 : (((l.dropWhile Char.isWhitespace).reverse.dropWhile
      Char.isWhitespace)).Sublist (l.dropWhile Char.isWhitespace).reverse :=
    List.dropWhile_sublist _
  have h3 := (h2.reverse).trans (by simpa using h1.reverse.reverse)
  simpa using h3

/-- Removing a trailing dot only removes characters. -/
lemma remove_suffix_dot_sublist (l : List Char) :
    (remove_suffix_dot l).Sublist l := by
  unfold remove_suffix_dot
  split
  · exact List.dropLast_sublist l
  · exact List.Sublist.refl l

/-- Every character surviving `normalize_text` came out of `Char.toLower`,
so none is an ASCII uppercase letter. -/
lemma normalize_text_not_upper (text : String) (c : Char)
    (hc : c ∈ normalize_text text) : c.isUpper = false := by
  have h1 : c ∈ lower_chars text.toList :=
    ((remove_suffix_dot_sublist _).trans (strip_chars_sublist _)).mem hc
  obtain ⟨c0, _, rfl⟩ := List.mem_map.mp h1
  exact toLower_isUpper_false c0

/-- Claim C10 (counterexample): the transcript `"Hello.."` is normalized to
`"hello."`, which is enqueued even though it still ends with a period —
`removesuffix(".")` removes at most one trailing dot, so enqueued texts can
retain a trailing period. -/
theorem C10_counterexample :
    recognize (RecognitionOutcome.recognized "Hello..") 5 =
      some { receiving_time := 5, text := "hello." } ∧
    ("hello." : String).toList.getLast? = some '.' := by
  refine ⟨by decide, by decide⟩

/-- Claim C10 (amended): every task enqueued by `STTManager.recognize` is
stamped with the submission time and carries exactly the normalized
transcript — lowercased, stripped, with at most one trailing dot removed —
which is non-empty and contains no ASCII uppercase letter (but may still
end with a period); empty normalized text and failed transcriptions enqueue
nothing. -/
theorem C10_recognize_normalizes (text : String) (now : Int) (task : LLMTask)
    (h : recognize (RecognitionOutcome.recognized text) now = some task) :
    task.receiving_time = now ∧
    task.text = String.mk (normalize_text text) ∧
    task.text.toList ≠ [] ∧
    (∀ c ∈ task.text.toList, c.isUpper = false) ∧
    recognize RecognitionOutcome.failure now = none ∧
    (∀ t2 : String, normalize_text t2 = [] →
      recognize (RecognitionOutcome.recognized t2) now = none) := by
  unfold recognize at h
  by_cases hlen : (normalize_text text).length = 0
  · simp [hlen] at h
  · simp only [hlen, if_false] at h
    obtain rfl := (Option.some.injEq _ _).mp h
    refine ⟨rfl, rfl, ?_, ?_, rfl, ?_⟩
    · show normalize_text text ≠ []
      intro hnil
      exact hlen (by simp [hnil])
    · intro c hc
      exact normalize_text_not_upper text c hc
    · intro t2 h2
      unfold recognize
      simp [h2]

/-- Claim C10 (witness): the amended statement at the concrete transcript
`"Hi There."`. -/
theorem C10_recognize_normalizes_witness :
    recognize (RecognitionOutcome.recognized "Hi There.") 7 =
      some { receiving_time := 7, text := "hi there" } ∧
    ({ receiving_time := 7, text := "hi there" } : LLMTask).text =
      String.mk (normalize_text "Hi There.") :=
  ⟨by decide,
    (C10_recognize_normalizes "Hi There." 7
      { receiving_time := 7, text := "hi there" } (by decide)).2.1⟩

end LLMBox
